import Mathlib

/-!
Verification development for the GFDL MDTF workflow prototype
(`gfdl_workflow_proto_1`).

The development shallowly embeds the computational core of the repository:
the variable-precision date type `Date` and the `DateRange` / `DateFrequency`
types of `src/datelabel.py`, the `MultiMap` of `src/util.py`, and the CMIP6
controlled-vocabulary lookup together with the DRS path / filename / table-id
parsers of `src/cmip6.py` (the regular expressions are embedded through a
small backtracking matcher mirroring Python `re.match` semantics).

Python exceptions are modelled by the `PyErr` type and fallible operations
return `Except PyErr` values; Python `None` results are modelled by
`Option.none`.  The code base is Python 2 (it uses a `print` statement),
running on CPython's `datetime` with its proleptic Gregorian calendar and
year range 1..9999.
-/

/-- Exception kinds raised by the embedded code.  The payload strings are
informal; only the constructor (the Python exception class) is significant. -/
inductive PyErr where
  | valueError (msg : String)
  | typeError (msg : String)
  | keyError (key : String)
  | assertionError
  | indexError
  | attributeError (msg : String)
  deriving Repr, DecidableEq

/-- Truth value of an `Except` result: `true` on `.ok`, `false` on `.error`.
Models "the call returns without raising". -/
def exOk {ε α : Type} : Except ε α → Bool
  | .ok _ => true
  | .error _ => false

/-- Embedding of `datelabel.Date` (src/datelabel.py lines 12-26): a
`datetime.datetime` subclass carrying year/month/day/hour components plus a
`precision` attribute in 1..4 recording how many components were supplied
(missing month and day default to 1, hour to 0).  Minutes and below are never
used by the repository and are omitted. -/
structure PyDate where
  year : Int
  month : Int
  day : Int
  hour : Int
  precision : Nat
  deriving Repr, DecidableEq

/-- Number of days of a month in the proleptic Gregorian calendar used by
Python's `datetime` (leap years: divisible by 4 and not by 100, or by 400). -/
def monthLen (y m : Int) : Int :=
  if m = 2 then
    (if (y % 4 = 0 ∧ y % 100 ≠ 0) ∨ y % 400 = 0 then 29 else 28)
  else if m = 4 ∨ m = 6 ∨ m = 9 ∨ m = 11 then 30
  else 31

/-- Validity check performed by `datetime.datetime.__new__`: `MINYEAR = 1 <=
year <= MAXYEAR = 9999`, `1 <= month <= 12`, `1 <= day <=` length of the
month, `0 <= hour <= 23`.  Construction raises `ValueError` otherwise. -/
def datetimeOk (y m d h : Int) : Bool :=
  1 ≤ y ∧ y ≤ 9999 ∧ 1 ≤ m ∧ m ≤ 12 ∧ 1 ≤ d ∧ d ≤ monthLen y m ∧
    0 ≤ h ∧ h ≤ 23

/-- Construction of a `Date` from explicit components (src/datelabel.py lines
16-26): precision is the number of arguments, missing components default to
month 1, day 1, hour 0; the underlying `datetime` constructor validates the
components. -/
def dateMk (y m d h : Int) (prec : Nat) : Except PyErr PyDate :=
  if datetimeOk y m d h then .ok ⟨y, m, d, h, prec⟩
  else .error (.valueError "date components out of range")

/-- States of `PyDate` reachable through the `Date` constructor: precision in
1..4, datetime-valid components, and components below the stored precision
left at their defaults (month 1, day 1, hour 0). -/
def dateValid (a : PyDate) : Prop :=
  (1 ≤ a.precision ∧ a.precision ≤ 4) ∧
    datetimeOk a.year a.month a.day a.hour = true ∧
    (a.precision ≤ 1 → a.month = 1) ∧
    (a.precision ≤ 2 → a.day = 1) ∧
    (a.precision ≤ 3 → a.hour = 0)

instance (a : PyDate) : Decidable (dateValid a) := by
  unfold dateValid; infer_instance

/-- Calendar-instant equality of the underlying `datetime` values (all
components below the hour are zero for every constructible `Date`). -/
def instantEq (a b : PyDate) : Bool :=
  a.year = b.year ∧ a.month = b.month ∧ a.day = b.day ∧ a.hour = b.hour

/-- Embedding of `Date.__eq__` between two `Date` values (src/datelabel.py
lines 102-111): the precisions must match and the underlying `datetime`
instants must be equal. -/
def dateEq (a b : PyDate) : Bool :=
  decide (a.precision = b.precision) && instantEq a b

/-- Embedding of `Date.__lt__` between two `Date` values: the inherited
`datetime` comparison, i.e. lexicographic on the calendar instant, ignoring
precision. -/
def dateLt (a b : PyDate) : Bool :=
  decide (a.year < b.year ∨
    (a.year = b.year ∧ (a.month < b.month ∨
      (a.month = b.month ∧ (a.day < b.day ∨
        (a.day = b.day ∧ a.hour < b.hour))))))

/-- Calendar successor of a (year, month, day) triple.  Python computes it as
`self + datetime.timedelta(days=1)`, which on a proleptic Gregorian
`datetime` with zero time-of-day components is exactly this case split. -/
def nextDay : Int × Int × Int → Int × Int × Int
  | (y, m, d) =>
    if d < monthLen y m then (y, m, d + 1)
    else if m < 12 then (y, m + 1, 1)
    else (y + 1, 1, 1)

/-- Calendar predecessor of a (year, month, day) triple, i.e. Python's
`self + datetime.timedelta(days=-1)` on a `datetime` with zero time-of-day. -/
def prevDay : Int × Int × Int → Int × Int × Int
  | (y, m, d) =>
    if 1 < d then (y, m, d - 1)
    else if 1 < m then (y, m - 1, monthLen y (m - 1))
    else (y - 1, 12, 31)

/-- Embedding of `Date.increment` (src/datelabel.py lines 116-134): advance by
one unit of the stored precision.  Precisions 1 and 2 rebuild through the
`Date` constructor (which can raise `ValueError` at the year bound);
precisions 3 and 4 add a `timedelta`, which raises `OverflowError` exactly
when the result would pass `datetime.max` (year 9999).  Failure of either
kind is modelled as `none`. -/
def dateIncrement (a : PyDate) : Option PyDate :=
  match a.precision with
  | 1 => (dateMk (a.year + 1) 1 1 0 1).toOption
  | 2 =>
    if a.month = 12 then (dateMk (a.year + 1) 1 1 0 2).toOption
    else (dateMk a.year (a.month + 1) 1 0 2).toOption
  | 3 =>
    if a.year = 9999 ∧ a.month = 12 ∧ a.day = 31 then none
    else
      let t := nextDay (a.year, a.month, a.day)
      some ⟨t.1, t.2.1, t.2.2, 0, 3⟩
  | 4 =>
    if a.hour < 23 then some ⟨a.year, a.month, a.day, a.hour + 1, 4⟩
    else if a.year = 9999 ∧ a.month = 12 ∧ a.day = 31 then none
    else
      let t := nextDay (a.year, a.month, a.day)
      some ⟨t.1, t.2.1, t.2.2, 0, 4⟩
  | _ => none

/-- Embedding of `Date.decrement` (src/datelabel.py lines 136-154): move back
by one unit of the stored precision, with the same failure modes as
`dateIncrement` at the lower calendar bound (year 1). -/
def dateDecrement (a : PyDate) : Option PyDate :=
  match a.precision with
  | 1 => (dateMk (a.year - 1) 1 1 0 1).toOption
  | 2 =>
    if a.month = 1 then (dateMk (a.year - 1) 12 1 0 2).toOption
    else (dateMk a.year (a.month - 1) 1 0 2).toOption
  | 3 =>
    if a.year = 1 ∧ a.month = 1 ∧ a.day = 1 then none
    else
      let t := prevDay (a.year, a.month, a.day)
      some ⟨t.1, t.2.1, t.2.2, 0, 3⟩
  | 4 =>
    if 0 < a.hour then some ⟨a.year, a.month, a.day, a.hour - 1, 4⟩
    else if a.year = 1 ∧ a.month = 1 ∧ a.day = 1 then none
    else
      let t := prevDay (a.year, a.month, a.day)
      some ⟨t.1, t.2.1, t.2.2, 23, 4⟩
  | _ => none

/-!
Backtracking regular-expression matcher.

The parsers in src/cmip6.py and src/datelabel.py are written with Python
`re.match`.  `RE` embeds exactly the constructs those patterns use: literal
text, single-character classes, concatenation, ordered alternation, greedy
option, greedy star over a class, lazy star over a class, and named capture
groups (identified here by number).  `reRun` implements Python's leftmost
backtracking search: alternation and option try the left/present branch
first, greedy stars try the longest repetition first, lazy stars the
shortest.  `re.match` anchors at the start of the string only; patterns that
end in `$` in the source carry an explicit `RE.eos`.
-/

/-- Abstract syntax of the regular-expression fragment used by the code. -/
inductive RE where
  | eps
  | lit (cs : List Char)
  | cls (p : Char → Bool)
  | cat (a b : RE)
  | alt (a b : RE)
  | opt (a : RE)
  | starG (p : Char → Bool)
  | starL (p : Char → Bool)
  | grp (n : Nat) (a : RE)
  | eos

/-- Capture list: group number paired with the consumed characters. -/
def Caps : Type := List (Nat × List Char)

/-- Continuation used by the matcher. -/
def ReK : Type := Caps → List Char → Option (Caps × List Char)

/-- Greedy repetition over a maximal run: try consuming all of `run` first,
then successively less, finally none. -/
def reGreedy (caps : Caps) (k : ReK) : List Char → List Char → Option (Caps × List Char)
  | [], rest => k caps rest
  | c :: rs, rest =>
    match reGreedy caps k rs rest with
    | some r => some r
    | none => k caps (c :: (rs ++ rest))

/-- Lazy repetition over a maximal run: try consuming nothing first, then
successively more. -/
def reLazy (caps : Caps) (k : ReK) : List Char → List Char → Option (Caps × List Char)
  | [], rest => k caps rest
  | c :: rs, rest =>
    match k caps (c :: (rs ++ rest)) with
    | some r => some r
    | none => reLazy caps k rs rest

/-- Backtracking matcher in continuation-passing style.  `reRun r s caps k`
tries every way for `r` to consume a prefix of `s`, in Python preference
order, calling `k` with the extended captures and the remaining input. -/
def reRun : RE → List Char → Caps → ReK → Option (Caps × List Char)
  | .eps, s, caps, k => k caps s
  | .lit cs, s, caps, k =>
    if cs.isPrefixOf s then k caps (s.drop cs.length) else none
  | .cls p, s, caps, k =>
    match s with
    | [] => none
    | c :: rest => if p c then k caps rest else none
  | .cat a b, s, caps, k => reRun a s caps (fun caps2 rest => reRun b rest caps2 k)
  | .alt a b, s, caps, k =>
    match reRun a s caps k with
    | some r => some r
    | none => reRun b s caps k
  | .opt a, s, caps, k =>
    match reRun a s caps k with
    | some r => some r
    | none => k caps s
  | .starG p, s, caps, k =>
    let run := s.takeWhile p
    reGreedy caps k run (s.drop run.length)
  | .starL p, s, caps, k =>
    let run := s.takeWhile p
    reLazy caps k run (s.drop run.length)
  | .grp n a, s, caps, k =>
    reRun a s caps
      (fun caps2 rest => k ((n, s.take (s.length - rest.length)) :: caps2) rest)
  | .eos, s, caps, k =>
    match s with
    | [] => k caps []
    | _ :: _ => none

/-- Entry point modelling `re.match(pattern, s)`: anchored at the start,
allowed to stop before the end of input.  Returns the captures on success. -/
def reMatch (r : RE) (s : String) : Option Caps :=
  (reRun r s.toList [] (fun caps rest => some (caps, rest))).map Prod.fst

/-- Text of capture group `n`, or the empty string when the group is absent
(every named group of the embedded patterns participates in any match). -/
def capStr (caps : Caps) (n : Nat) : String :=
  match caps.lookup n with
  | some cs => String.mk cs
  | none => ""

/-- Concatenation of a list of patterns. -/
def reSeq (l : List RE) : RE := l.foldr RE.cat RE.eps

/-- Literal pattern from a string. -/
def reStr (s : String) : RE := RE.lit s.toList

/-- Greedy `+` over a character class, i.e. one occurrence then a greedy
star. -/
def rePlus (p : Char → Bool) : RE := RE.cat (.cls p) (.starG p)

/-- Ordered alternation of literal words, mirroring a `(w1|w2|...)` source
alternation. -/
def reWords (l : List String) : RE :=
  match l with
  | [] => RE.eps
  | [w] => reStr w
  | w :: ws => RE.alt (reStr w) (reWords ws)

/-- Character class `\w` of a Python 2 byte-string pattern:
`[a-zA-Z0-9_]`. -/
def isWordChar (c : Char) : Bool := c.isAlphanum || c == '_'

/-- Integer value of a digit string, used for `int()` applied to regex digit
captures and fixed-width date slices (always nonempty all-digit strings). -/
def digitsToInt (cs : List Char) : Int :=
  cs.foldl (fun a c => a * 10 + ((c.toNat : Int) - ('0'.toNat : Int))) 0

/-- Embedding of Python `int(s)` on the strings this code applies it to:
succeeds on nonempty digit strings, raises `ValueError` otherwise. -/
def pyIntL (cs : List Char) : Except PyErr Int :=
  if cs ≠ [] ∧ cs.all Char.isDigit then .ok (digitsToInt cs)
  else .error (.valueError "invalid literal for int")

/-- Embedding of the `Date` string constructor,
`Date._parse_input_string` (src/datelabel.py lines 29-43) composed with
`Date.__new__`: hyphen-separated components, or fixed-width `YYYY`,
`YYYYMM`, `YYYYMMDD`, `YYYYMMDDHH` forms; precision is the component count.
Hyphenated strings with more than four components would construct at
minute-and-below precision, which this model does not carry. -/
def dateOfString (s : String) : Except PyErr PyDate :=
  let cs := s.toList
  if cs.contains '-' then do
    let ns ← (s.splitOn "-").mapM (fun p => pyIntL p.toList)
    match ns with
    | [y] => dateMk y 1 1 0 1
    | [y, m] => dateMk y m 1 0 2
    | [y, m, d] => dateMk y m d 0 3
    | [y, m, d, h] => dateMk y m d h 4
    | _ => .error (.typeError "datetime components below hour not modelled")
  else if cs.length = 4 then do
    let y ← pyIntL cs
    dateMk y 1 1 0 1
  else if cs.length = 6 then do
    let y ← pyIntL (cs.take 4)
    let m ← pyIntL (cs.drop 4)
    dateMk y m 1 0 2
  else if cs.length = 8 then do
    let y ← pyIntL (cs.take 4)
    let m ← pyIntL ((cs.drop 4).take 2)
    let d ← pyIntL (cs.drop 6)
    dateMk y m d 0 3
  else if cs.length = 10 then do
    let y ← pyIntL (cs.take 4)
    let m ← pyIntL ((cs.drop 4).take 2)
    let d ← pyIntL ((cs.drop 6).take 2)
    let h ← pyIntL (cs.drop 8)
    dateMk y m d h 4
  else .error (.valueError ("Malformed input " ++ s))

/-- Embedding of `datelabel.DateRange` (src/datelabel.py lines 157-175): a
closed interval of `Date` values.  The source field `end` is called `stop`
here because `end` is a Lean keyword. -/
structure PyDateRange where
  start : PyDate
  stop : PyDate
  deriving Repr, DecidableEq

/-- Tail of `DateRange.__init__` once `start` and `end` are `Date` values:
`assert start < end` then store the fields. -/
def dateRangeNew (s e : PyDate) : Except PyErr PyDateRange :=
  if dateLt s e then .ok ⟨s, e⟩ else .error .assertionError

/-- Stable insertion of a range into a list sorted by interval start, the
comparison Python `sorted(coll, key=lambda dtr: dtr.start)` performs. -/
def drInsert (r : PyDateRange) : List PyDateRange → List PyDateRange
  | [] => [r]
  | x :: t => if dateLt r.start x.start then r :: x :: t else x :: drInsert r t

/-- Stable sort of date ranges by their start dates. -/
def drSort (l : List PyDateRange) : List PyDateRange :=
  l.foldr drInsert []

/-- Adjacent-pair contiguity loop of `DateRange._parse_input_collection`
(src/datelabel.py lines 190-193): for each consecutive pair, the left end
incremented must equal the right start and the right start decremented must
equal the left end (`!=` is the precision-sensitive `Date.__ne__`); a
failing `Date` construction inside `increment`/`decrement` propagates as a
`ValueError`. -/
def drContig : PyDateRange → List PyDateRange → Except PyErr Unit
  | _, [] => .ok ()
  | r1, r2 :: t =>
    match dateIncrement r1.stop with
    | none => .error (.valueError "date out of range")
    | some inc =>
      if dateEq inc r2.start = false then
        .error (.valueError "Date Ranges not contiguous and nonoverlapping.")
      else
        match dateDecrement r2.start with
        | none => .error (.valueError "date out of range")
        | some dec =>
          if dateEq dec r1.stop = false then
            .error (.valueError "Date Ranges not contiguous and nonoverlapping.")
          else drContig r2 t

/-- Embedding of `DateRange` construction from a collection of `DateRange`
values (src/datelabel.py lines 162-175 with `_parse_input_collection` lines
184-194): sort by start, require adjacent contiguity, take the spanning
endpoints, then run the `assert start < end` of `__init__`.  Indexing an
empty sorted list raises `IndexError`. -/
def dateRangeOfRanges (coll : List PyDateRange) : Except PyErr PyDateRange :=
  match drSort coll with
  | [] => .error .indexError
  | r :: rs => do
    let _ ← drContig r rs
    dateRangeNew r.start (rs.getLastD r).stop

/-- Embedding of `datelabel.DateFrequency` (src/datelabel.py lines 241-280):
a `datetime.timedelta` subclass carrying a `quantity` and a normalized
`unit`.  `tdSeconds` is the underlying timedelta expressed in seconds (365
days per year, 91 per season, 30 per month, 7 per week). -/
structure PyDateFrequency where
  quantity : Int
  unit : String
  tdSeconds : Int
  deriving Repr, DecidableEq

/-- Pattern `(?P<quantity>\d+)[ _]*(?P<unit>[a-zA-Z]+)` of
`DateFrequency._parse_input_string` (src/datelabel.py line 284); group 1 is
`quantity`, group 2 is `unit`. -/
def dateFreqRE : RE :=
  reSeq [.grp 1 (rePlus Char.isDigit),
    .starG (fun c => c == ' ' || c == '_'),
    .grp 2 (rePlus Char.isAlpha)]

/-- Embedding of `DateFrequency._parse_input_string` (src/datelabel.py lines
282-304): a leading-integer-plus-letters composite, else a fixed word table
with implied quantity 1. -/
def dateFreqParseInputString (s : String) : Except PyErr (Int × String) :=
  match reMatch dateFreqRE s with
  | some caps => .ok (digitsToInt (capStr caps 1).toList, capStr caps 2)
  | none =>
    if s ∈ ["yearly", "year", "y", "annually", "annual", "ann"] then .ok (1, "yr")
    else if s ∈ ["seasonally", "seasonal", "season"] then .ok (1, "se")
    else if s ∈ ["monthly", "month", "mon", "mo"] then .ok (1, "mo")
    else if s ∈ ["weekly", "week", "wk", "w"] then .ok (1, "wk")
    else if s ∈ ["daily", "day", "d", "diurnal", "diurnally"] then .ok (1, "dy")
    else if s ∈ ["hourly", "hour", "hr", "h"] then .ok (1, "hr")
    else .error (.valueError ("Malformed input " ++ s))

/-- Lower-casing of an ASCII character, as `str.lower` does on the byte
strings this code handles. -/
def pyLowerChar (c : Char) : Char :=
  if 65 ≤ c.toNat ∧ c.toNat ≤ 90 then Char.ofNat (c.toNat + 32) else c

/-- Embedding of Python `str.lower` on ASCII strings. -/
def pyLower (s : String) : String := String.mk (s.toList.map pyLowerChar)

/-- Embedding of `DateFrequency.__new__` once `quantity` is an integer and
`unit` a string (src/datelabel.py lines 252-280): lower-case the unit,
dispatch on its first letter to fix the normalized unit and the timedelta;
`unit[0]` on an empty string raises `IndexError`, an unrecognized first
letter raises `ValueError`. -/
def dateFreqNew (quantity : Int) (unit : String) : Except PyErr PyDateFrequency :=
  match (pyLower unit).toList with
  | [] => .error .indexError
  | c :: _ =>
    if c = 'y' then .ok ⟨quantity, "yr", 365 * quantity * 86400⟩
    else if c = 's' then .ok ⟨quantity, "se", 91 * quantity * 86400⟩
    else if c = 'm' then .ok ⟨quantity, "mo", 30 * quantity * 86400⟩
    else if c = 'w' then .ok ⟨quantity, "wk", 7 * quantity * 86400⟩
    else if c = 'd' then .ok ⟨quantity, "dy", quantity * 86400⟩
    else if c = 'h' then .ok ⟨quantity, "hr", quantity * 3600⟩
    else .error (.valueError "Malformed input")

/-- Construction of a `DateFrequency` from a single string argument
(src/datelabel.py lines 249-251): parse, then dispatch. -/
def dateFreqOfString (s : String) : Except PyErr PyDateFrequency := do
  let qu ← dateFreqParseInputString s
  dateFreqNew qu.1 qu.2

/-- Embedding of `DateFrequency.__eq__` between two frequencies
(src/datelabel.py lines 337-342): labels only, the `(quantity, unit)`
pair. -/
def dateFreqEq (a b : PyDateFrequency) : Bool :=
  decide (a.quantity = b.quantity) && decide (a.unit = b.unit)

/-- Embedding of `DateFrequency.format` (src/datelabel.py lines 329-331). -/
def dateFreqFormat (f : PyDateFrequency) : String :=
  toString f.quantity ++ f.unit

/-- Embedding of `DateFrequency.format_local` (src/datelabel.py lines
306-315): the `hr` unit short-circuits to the default format; otherwise
`assert self.quantity == 1` raises `AssertionError`, then the local table
`{mo: mon, da: day}` is consulted, raising `KeyError` for units outside
it. -/
def dateFreqFormatLocal (f : PyDateFrequency) : Except PyErr String :=
  if f.unit = "hr" then .ok (dateFreqFormat f)
  else if f.quantity = 1 then
    if f.unit = "mo" then .ok "mon"
    else if f.unit = "da" then .ok "day"
    else .error (.keyError f.unit)
  else .error .assertionError

/-- Embedding of `cmip6.CMIP6DateFrequency` objects: the fields the class
would carry if its construction succeeded (quantity, normalized unit,
averaging marker, and the CMIP6 precision code). -/
structure CMIP6Freq where
  quantity : Int
  unit : String
  avg : String
  prec : Int
  deriving Repr, DecidableEq

/-- Pattern `^(?P<quantity>(1|3|6)?)(?P<unit>[a-z]*?)(?P<avg>(C|CM|Pt)?)$`
of `CMIP6DateFrequency._regex` (src/cmip6.py lines 70-76); group 1 is
`quantity`, group 2 `unit`, group 3 `avg`. -/
def cmip6FreqRE : RE :=
  reSeq [.grp 1 (.opt (reWords ["1", "3", "6"])),
    .grp 2 (.starL Char.isLower),
    .grp 3 (.opt (reWords ["C", "CM", "Pt"])),
    .eos]

/-- Lookup in `CMIP6DateFrequency._precision_lookup` (src/cmip6.py lines
65-69); a unit outside the table raises `KeyError`. -/
def cmip6PrecisionLookup (u : String) : Except PyErr Int :=
  if u = "fx" then .ok 0
  else if u = "yr" then .ok 1
  else if u = "mo" then .ok 2
  else if u = "day" then .ok 3
  else if u = "hr" then .ok 5
  else if u = "min" then .ok 6
  else .error (.keyError u)

/-- Group-dictionary normalization performed by
`CMIP6DateFrequency._parse_input_string` (src/cmip6.py lines 84-109) on the
string handed to its regex, before the `return` at line 110 evaluates the
undefined `cls._get_timedelta_kwargs`: unit spelling rewrites (`dec`,
`mon`, `subhr`, `fx`), the falsy-quantity default of 1 (which also turns
the `fx` quantity 0 into 1), the averaging default `Mean` with `C`/`CM`
collapsed to `Clim`, and the precision lookup. -/
def cmip6FreqGroupdict (s : String) : Except PyErr CMIP6Freq :=
  match reMatch cmip6FreqRE s with
  | none => .error (.valueError ("Malformed input " ++ s))
  | some caps =>
    let q0 := capStr caps 1
    let u0 := capStr caps 2
    let a0 := capStr caps 3
    let over : Option Int × String :=
      if u0 = "dec" then (some 10, "yr")
      else if u0 = "mon" then (none, "mo")
      else if u0 = "subhr" then (some 15, "min")
      else if u0 = "fx" then (some 0, "fx")
      else (none, u0)
    let q : Int :=
      match over.1 with
      | some n => if n = 0 then 1 else n
      | none => if q0 = "" then 1 else digitsToInt q0.toList
    let a := if a0 = "" then "Mean" else if a0 = "C" ∨ a0 = "CM" then "Clim" else a0
    (cmip6PrecisionLookup over.2).map (fun p => ⟨q, over.2, a, p⟩)

/-- Embedding of `CMIP6DateFrequency._parse_input_string` exactly as written
(src/cmip6.py lines 78-112), a classmethod of two arguments: when `quantity`
is falsy the regex is run on `unit`, otherwise on `str(quantity)+unit`; a
failed match raises `ValueError`; on a match, after the group-dictionary
normalization, the `return` expression calls `cls._get_timedelta_kwargs`,
which is defined nowhere in the repository, so the call raises
`AttributeError`. -/
def cmip6ParseInputString (quantity unit : String) : Except PyErr CMIP6Freq := do
  let _md ← cmip6FreqGroupdict (if quantity = "" then unit else quantity ++ unit)
  .error (.attributeError "type object CMIP6DateFrequency has no attribute get timedelta kwargs")

/-- Model of constructing `CMIP6DateFrequency(s)` from one string argument:
the class defines no `__new__` of its own, so `DateFrequency.__new__`
(src/datelabel.py line 251) runs and calls `cls._parse_input_string(quantity)`
with a single argument, while `CMIP6DateFrequency._parse_input_string`
(src/cmip6.py line 79) requires two; the call raises `TypeError` before any
parsing happens. -/
def cmip6DateFrequencyNew (_s : String) : Except PyErr CMIP6Freq :=
  .error (.typeError "parse input string takes exactly 3 arguments (2 given)")

/-- Pattern `mip_table_regex` (src/cmip6.py lines 143-150); group 1 is
`table_prefix`, group 2 `table_freq`, group 3 `table_suffix`, group 4
`table_qualifier`. -/
def mipTableRE : RE :=
  reSeq [.grp 1 (.opt (reWords ["A", "CF", "E", "I", "AER", "O", "L", "LI", "SI"])),
    .grp 2 (.cat (.opt (.cls Char.isDigit)) (.starL Char.isLower)),
    .grp 3 (.opt (reWords ["ClimMon", "Lev", "Plev", "Ant", "Gre"])),
    .grp 4 (.opt (reWords ["Pt", "Z", "Off"])),
    .eos]

/-- Named captures of `mip_table_regex` on a table-id code, in source order:
(table_prefix, table_freq, table_suffix, table_qualifier). -/
def mipGroups (s : String) : Option (String × String × String × String) :=
  (reMatch mipTableRE s).map fun caps =>
    (capStr caps 1, capStr caps 2, capStr caps 3, capStr caps 4)

/-- Result record of `parse_mip_table_id`: the four captures (with the
`clim` to `mon` rewrite applied to the frequency token) plus the
`date_freq` entry. -/
structure MipTable where
  pfx : String
  freq : String
  sfx : String
  qual : String
  dateFreq : CMIP6Freq
  deriving Repr, DecidableEq

/-- Embedding of `parse_mip_table_id` (src/cmip6.py lines 152-161): match the
table-id grammar, rewrite a bare `clim` frequency to `mon`, then construct
the `CMIP6DateFrequency` for the frequency token. -/
def parseMipTableId (s : String) : Except PyErr MipTable :=
  match mipGroups s with
  | some g =>
    let f := if g.2.1 = "clim" then "mon" else g.2.1
    (cmip6DateFrequencyNew f).map (fun df => ⟨g.1, f, g.2.2.1, g.2.2.2, df⟩)
  | none => .error (.valueError ("Cannot parse " ++ s ++ "."))

/-- Field values stored in a parsed DRS metadata record. -/
inductive PyVal where
  | str (s : String)
  | date (d : PyDate)
  | rng (r : PyDateRange)
  | freq (f : CMIP6Freq)
  deriving Repr, DecidableEq

/-- Metadata record: a Python dict from field name to value. -/
abbrev DRSRec : Type := List (String × PyVal)

/-- Entries contributed by `md.update(parse_mip_table_id(md['table_id']))`. -/
def mipRec (m : MipTable) : DRSRec :=
  [("table_prefix", .str m.pfx), ("table_freq", .str m.freq),
   ("table_suffix", .str m.sfx), ("table_qualifier", .str m.qual),
   ("date_freq", .freq m.dateFreq)]

/-- Pattern `drs_directory_regex` (src/cmip6.py lines 163-176); groups 1-8
are the `\w+` path segments `activity_id` through `grid_label`, group 9 the
`version_date` digits. -/
def drsDirectoryRE : RE :=
  reSeq [.opt (reStr "/"), reStr "CMIP6/",
    .grp 1 (rePlus isWordChar), reStr "/",
    .grp 2 (rePlus isWordChar), reStr "/",
    .grp 3 (rePlus isWordChar), reStr "/",
    .grp 4 (rePlus isWordChar), reStr "/",
    .grp 5 (rePlus isWordChar), reStr "/",
    .grp 6 (rePlus isWordChar), reStr "/",
    .grp 7 (rePlus isWordChar), reStr "/",
    .grp 8 (rePlus isWordChar), reStr "/",
    reStr "v", .grp 9 (rePlus Char.isDigit), .opt (reStr "/")]

/-- Embedding of `parse_DRS_directory` (src/cmip6.py lines 179-187): match
the nine-segment template, parse the version date, then merge in the
decomposed table id. -/
def parseDRSDirectory (dir : String) : Except PyErr DRSRec :=
  match reMatch drsDirectoryRE dir with
  | none => .error (.valueError ("Cannot parse " ++ dir ++ "."))
  | some caps => do
    let vd ← dateOfString (capStr caps 9)
    let mip ← parseMipTableId (capStr caps 6)
    .ok ([("activity_id", .str (capStr caps 1)),
          ("institution_id", .str (capStr caps 2)),
          ("source_id", .str (capStr caps 3)),
          ("experiment_id", .str (capStr caps 4)),
          ("member_id", .str (capStr caps 5)),
          ("table_id", .str (capStr caps 6)),
          ("variable_id", .str (capStr caps 7)),
          ("grid_label", .str (capStr caps 8)),
          ("version_date", .date vd)] ++ mipRec mip)

/-- Pattern `drs_filename_regex` (src/cmip6.py lines 189-198); groups 1-6
are the `\w+` fields `variable_id` through `grid_label`, groups 7 and 8 the
start and end date digits. -/
def drsFilenameRE : RE :=
  reSeq [.grp 1 (rePlus isWordChar), reStr "_",
    .grp 2 (rePlus isWordChar), reStr "_",
    .grp 3 (rePlus isWordChar), reStr "_",
    .grp 4 (rePlus isWordChar), reStr "_",
    .grp 5 (rePlus isWordChar), reStr "_",
    .grp 6 (rePlus isWordChar), reStr "_",
    .grp 7 (rePlus Char.isDigit), reStr "-",
    .grp 8 (rePlus Char.isDigit), reStr ".nc"]

/-- Embedding of `parse_DRS_filename` (src/cmip6.py lines 200-210): match
the underscore template, parse the two end dates, build their `DateRange`,
then merge in the decomposed table id. -/
def parseDRSFilename (file : String) : Except PyErr DRSRec :=
  match reMatch drsFilenameRE file with
  | none => .error (.valueError ("Cannot parse " ++ file ++ "."))
  | some caps => do
    let sd ← dateOfString (capStr caps 7)
    let ed ← dateOfString (capStr caps 8)
    let dr ← dateRangeNew sd ed
    let mip ← parseMipTableId (capStr caps 2)
    .ok ([("variable_id", .str (capStr caps 1)),
          ("table_id", .str (capStr caps 2)),
          ("source_id", .str (capStr caps 3)),
          ("experiment_id", .str (capStr caps 4)),
          ("realization_code", .str (capStr caps 5)),
          ("grid_label", .str (capStr caps 6)),
          ("start_date", .date sd),
          ("end_date", .date ed),
          ("date_range", .rng dr)] ++ mipRec mip)

/-- Embedding of `os.path.split`: split at the final separator and strip
trailing separators from the head (kept only when the head is all
separators). -/
def osPathSplit (p : String) : String × String :=
  let cs := p.toList
  let tail := (cs.reverse.takeWhile (· ≠ '/')).reverse
  let head0 := cs.take (cs.length - tail.length)
  let head :=
    if head0.all (· = '/') then head0
    else (head0.reverse.dropWhile (· = '/')).reverse
  (String.mk head, String.mk tail)

/-- Field names of a record. -/
def recKeys (r : DRSRec) : List String := r.map Prod.fst

/-- Python dict subscript: the stored value, or `KeyError`. -/
def recGet (r : DRSRec) (k : String) : Except PyErr PyVal :=
  match r.lookup k with
  | some v => .ok v
  | none => .error (.keyError k)

/-- Embedding of `parse_DRS_path` (src/cmip6.py lines 212-222), exactly as
written: split the path, parse both halves, intersect the key sets, and for
each shared key compare `d1['key']` with `d2['key']` - the source reads the
literal string `'key'`, not the loop variable, so the body raises `KeyError`
on the first iteration whenever a shared key exists.  The final
`return d1.update(d2)` returns the result of `dict.update`, which is `None`,
modelled as `Option.none`. -/
def parseDRSPath (p : String) : Except PyErr (Option DRSRec) := do
  let pr := osPathSplit p
  let d1 ← parseDRSDirectory pr.1
  let d2 ← parseDRSFilename pr.2
  let common := (recKeys d1).filter (fun k => (recKeys d2).contains k)
  let _ ← common.foldlM (fun _ k => do
      let v1 ← recGet d1 "key"
      let v2 ← recGet d2 "key"
      if v1 ≠ v2 then
        .error (.valueError (k ++ " fields inconsistent in parsing " ++ p))
      else pure ()) ()
  .ok none

/-- Embedding of `util.MultiMap` (src/util.py lines 58-99): a
`defaultdict(set)` from keys to value sets.  Value sets are modelled as
duplicate-free lists in insertion order. -/
abbrev MMap : Type := List (String × List String)

/-- Python `set.add`: append the element unless already present. -/
def setAdd (l : List String) (v : String) : List String :=
  if v ∈ l then l else l ++ [v]

/-- Python `set.update` with an iterable of strings. -/
def setUpdate (l vs : List String) : List String := vs.foldl setAdd l

/-- Step `mm[k].update(vs)` on a `MultiMap`: the defaultdict access creates
a fresh empty set for a missing key, then the update unions in `vs`. -/
def mmUpdate (m : MMap) (k : String) (vs : List String) : MMap :=
  match m with
  | [] => [(k, setUpdate [] vs)]
  | (k2, l) :: t =>
    if k2 = k then (k2, setUpdate l vs) :: t else (k2, l) :: mmUpdate t k vs

/-- Result shape of `util.coerce_from_iter` (src/util.py lines 537-544) on a
collection: the bare element, or a list. -/
inductive ValueOrList where
  | single (v : String)
  | coll (l : List String)
  deriving Repr, DecidableEq

/-- Embedding of `util.coerce_from_iter` applied to a value set: a
one-element collection coerces to its element, anything else stays a
list. -/
def coerceFromIter (l : List String) : ValueOrList :=
  match l with
  | [v] => .single v
  | _ => .coll l

/-- Embedding of `MultiMap.get_` (src/util.py lines 77-80): `KeyError` for a
missing key, else the coerced value set. -/
def mmGet (m : MMap) (k : String) : Except PyErr ValueOrList :=
  match m.lookup k with
  | some vs => .ok (coerceFromIter vs)
  | none => .error (.keyError k)

/-- Inner step `d[v].add(key)` of `MultiMap.inverse` on a
`defaultdict(set)`. -/
def dAdd (d : MMap) (v k : String) : MMap :=
  match d with
  | [] => [(v, [k])]
  | (v2, ks) :: t =>
    if v2 = v then (v2, if k ∈ ks then ks else ks ++ [k]) :: t
    else (v2, ks) :: dAdd t v k

/-- Embedding of `MultiMap.inverse` (src/util.py lines 88-93): for every key
and every value in its set, add the key to the inverse entry of the
value. -/
def mmInverse (m : MMap) : MMap :=
  m.foldl (fun d kv => kv.2.foldl (fun d2 v => dAdd d2 v kv.1) d) []

/-- Relation "key `k` is associated with value `v`" in a multi-map. -/
def pairMem (m : MMap) (k v : String) : Prop :=
  ∃ vs, (k, vs) ∈ m ∧ v ∈ vs

/-- Controlled-vocabulary contents `CMIP6_CVs._contents` after loading:
category name, then per-entry sub-tables mapping a destination category to
its values (list-valued sub-entries). -/
abbrev CVContents : Type := List (String × List (String × List (String × List String)))

/-- State of the `CMIP6_CVs` singleton: the loaded contents plus the
`_lookups` cache keyed by `(source, dest)` pairs. -/
structure CMIP6CVs where
  contents : CVContents
  lookups : List ((String × String) × MMap)
  deriving Repr, DecidableEq

/-- Build loop of `CMIP6_CVs.get_lookup` (src/cmip6.py lines 49-51):
`mm[k].update(contents[source][k][dest])` over every entry of the source
category; a sub-table without the `dest` key raises `KeyError`. -/
def buildLookup (tbl : List (String × List (String × List String)))
    (dest : String) : Except PyErr MMap :=
  tbl.foldlM (fun mm kv =>
    match kv.2.lookup dest with
    | some vs => .ok (mmUpdate mm kv.1 vs)
    | none => .error (.keyError dest)) []

/-- Embedding of `CMIP6_CVs.get_lookup` (src/cmip6.py lines 41-53): assert
both categories exist; return the cached `(source, dest)` map if present;
else if `(dest, source)` is cached return its inverse; else build the map
from the contents and cache it.  The (possibly updated) singleton state is
returned alongside the map. -/
def getLookup (st : CMIP6CVs) (source dest : String) :
    Except PyErr (MMap × CMIP6CVs) :=
  match st.contents.lookup source, st.contents.lookup dest with
  | some tbl, some _ =>
    match st.lookups.lookup (source, dest) with
    | some mm => .ok (mm, st)
    | none =>
      match st.lookups.lookup (dest, source) with
      | some mm => .ok (mmInverse mm, st)
      | none =>
        (buildLookup tbl dest).map
          (fun mm => (mm, ⟨st.contents, ((source, dest), mm) :: st.lookups⟩))
  | _, _ => .error .assertionError

/-!
Theorems.  Helper lemmas come first, then the claim theorems with their
witnesses and counterexamples.
-/

theorem monthLen_le31 (y m : Int) : monthLen y m ≤ 31 := by
  unfold monthLen; split_ifs <;> omega

theorem monthLen12 (y : Int) : monthLen y 12 = 31 := by
  norm_num [monthLen]

theorem prevDay_nextDay (y m d : Int) (hm1 : 1 ≤ m) (hm2 : m ≤ 12)
    (hd1 : 1 ≤ d) (hd2 : d ≤ monthLen y m) :
    prevDay (nextDay (y, m, d)) = (y, m, d) := by
  by_cases h1 : d < monthLen y m
  · have e1 : nextDay (y, m, d) = (y, m, d + 1) := by simp [nextDay, h1]
    rw [e1]
    simp only [prevDay]
    rw [if_pos (by omega : (1:Int) < d + 1)]
    simp only [Prod.mk.injEq]
    exact ⟨trivial, trivial, by omega⟩
  · by_cases h2 : m < 12
    · have e1 : nextDay (y, m, d) = (y, m + 1, 1) := by simp [nextDay, h1, h2]
      rw [e1]
      simp only [prevDay]
      rw [if_neg (by omega), if_pos (by omega : (1:Int) < m + 1)]
      have e3 : m + 1 - 1 = m := by ring
      rw [e3]
      simp only [Prod.mk.injEq]
      exact ⟨trivial, trivial, by omega⟩
    · have hm12 : m = 12 := by omega
      subst hm12
      have h31 : monthLen y 12 = 31 := monthLen12 y
      have hd31 : d = 31 := by omega
      subst hd31
      have e1 : nextDay (y, 12, 31) = (y + 1, 1, 1) := by simp [nextDay, h1]
      rw [e1]
      simp only [prevDay]
      rw [if_neg (by omega), if_neg (by omega)]
      simp only [Prod.mk.injEq]
      exact ⟨by omega, trivial⟩

theorem nextDay_prevDay (y m d : Int) (hm1 : 1 ≤ m) (hm2 : m ≤ 12)
    (hd1 : 1 ≤ d) (hd2 : d ≤ monthLen y m) :
    nextDay (prevDay (y, m, d)) = (y, m, d) := by
  by_cases h1 : 1 < d
  · have e1 : prevDay (y, m, d) = (y, m, d - 1) := by simp [prevDay, h1]
    rw [e1]
    simp only [nextDay]
    rw [if_pos (by omega : d - 1 < monthLen y m)]
    simp only [Prod.mk.injEq]
    exact ⟨trivial, trivial, by omega⟩
  · by_cases h2 : 1 < m
    · have e1 : prevDay (y, m, d) = (y, m - 1, monthLen y (m - 1)) := by
        simp [prevDay, h1, h2]
      rw [e1]
      simp only [nextDay]
      rw [if_neg (by omega), if_pos (by omega : m - 1 < 12)]
      have e3 : m - 1 + 1 = m := by ring
      rw [e3]
      simp only [Prod.mk.injEq]
      exact ⟨trivial, trivial, by omega⟩
    · have hm1' : m = 1 := by omega
      have hd1' : d = 1 := by omega
      subst hm1'; subst hd1'
      have e1 : prevDay (y, 1, 1) = (y - 1, 12, 31) := by simp [prevDay]
      rw [e1]
      simp only [nextDay]
      rw [if_neg (by rw [monthLen12]; omega), if_neg (by omega)]
      simp only [Prod.mk.injEq]
      exact ⟨by omega, trivial⟩

theorem nextDay_ne_min (y m d : Int) (hy : 1 ≤ y) (hm : 1 ≤ m) (hd : 1 ≤ d) :
    nextDay (y, m, d) ≠ (1, 1, 1) := by
  intro h
  simp only [nextDay] at h
  split_ifs at h <;> simp only [Prod.mk.injEq] at h <;> omega

theorem prevDay_ne_max (y m d : Int) (hy : y ≤ 9999) (hm1 : 1 ≤ m) (hm2 : m ≤ 12)
    (hd2 : d ≤ monthLen y m) :
    prevDay (y, m, d) ≠ (9999, 12, 31) := by
  intro h
  simp only [prevDay] at h
  split_ifs at h <;> simp only [Prod.mk.injEq] at h
  · obtain ⟨h1, h2, h3⟩ := h
    subst h2
    have h31 : monthLen y 12 = 31 := monthLen12 y
    omega
  · omega
  · omega

theorem datetimeOk_iff (y m d h : Int) :
    datetimeOk y m d h = true ↔
      (1 ≤ y ∧ y ≤ 9999 ∧ 1 ≤ m ∧ m ≤ 12 ∧ 1 ≤ d ∧ d ≤ monthLen y m ∧
        0 ≤ h ∧ h ≤ 23) := by
  simp [datetimeOk]

theorem dateMk_toOption (y m d h : Int) (p : Nat) :
    (dateMk y m d h p).toOption =
      if datetimeOk y m d h then some ⟨y, m, d, h, p⟩ else none := by
  unfold dateMk; split_ifs <;> rfl

theorem monthLen_ge28 (y m : Int) : 28 ≤ monthLen y m := by
  unfold monthLen; split_ifs <;> omega

/-- Claim C6 (amended): for every constructible `Date`, whenever `increment`
succeeds its result decremented gives back the original date (same instant
and same precision), and symmetrically for `decrement` then `increment`;
this covers all four precisions including the 12 to 1 month rollover.  At
the `datetime` year bounds 1 and 9999 the inner operation raises instead
(see the counterexample), which is the only amendment to the claim. -/
theorem date_roundtrip (a : PyDate) (hv : dateValid a) :
    (∀ b, dateIncrement a = some b → dateDecrement b = some a) ∧
    (∀ b, dateDecrement a = some b → dateIncrement b = some a) := by
  obtain ⟨y, m, d, h, p⟩ := a
  obtain ⟨⟨hp1, hp4⟩, hok, hm1, hd1, hh0⟩ := hv
  simp only at hp1 hp4 hok hm1 hd1 hh0
  rw [datetimeOk_iff] at hok
  obtain ⟨hy1, hy2, hm1', hm2', hd1', hd2', hh1', hh2'⟩ := hok
  interval_cases p
  · -- precision 1
    obtain rfl := hm1 (by norm_num)
    obtain rfl := hd1 (by norm_num)
    obtain rfl := hh0 (by norm_num)
    constructor
    · intro b hb
      simp only [dateIncrement, dateMk_toOption] at hb
      split_ifs at hb with hok2
      obtain rfl : b = ⟨y + 1, 1, 1, 0, 1⟩ := (Option.some.injEq _ _ ▸ hb).symm
      simp only [dateDecrement]
      rw [show y + 1 - 1 = y by ring, dateMk_toOption,
        if_pos (by rw [datetimeOk_iff]; omega)]
    · intro b hb
      simp only [dateDecrement, dateMk_toOption] at hb
      split_ifs at hb with hok2
      obtain rfl : b = ⟨y - 1, 1, 1, 0, 1⟩ := (Option.some.injEq _ _ ▸ hb).symm
      simp only [dateIncrement]
      rw [show y - 1 + 1 = y by ring, dateMk_toOption,
        if_pos (by rw [datetimeOk_iff]; omega)]
  · -- precision 2
    obtain rfl := hd1 (by norm_num)
    obtain rfl := hh0 (by norm_num)
    have h31 := monthLen12 y
    constructor
    · intro b hb
      simp only [dateIncrement, dateMk_toOption] at hb
      split_ifs at hb with hm12 hok2 hok2
      · obtain rfl : b = ⟨y + 1, 1, 1, 0, 2⟩ := (Option.some.injEq _ _ ▸ hb).symm
        subst hm12
        simp only [dateDecrement]
        rw [if_pos trivial, show y + 1 - 1 = y by ring, dateMk_toOption,
          if_pos (by rw [datetimeOk_iff]; omega)]
      · obtain rfl : b = ⟨y, m + 1, 1, 0, 2⟩ := (Option.some.injEq _ _ ▸ hb).symm
        simp only [dateDecrement]
        rw [if_neg (by omega : ¬ m + 1 = 1), show m + 1 - 1 = m by ring,
          dateMk_toOption, if_pos (by rw [datetimeOk_iff]; omega)]
    · intro b hb
      simp only [dateDecrement, dateMk_toOption] at hb
      split_ifs at hb with hm12 hok2 hok2
      · obtain rfl : b = ⟨y - 1, 12, 1, 0, 2⟩ := (Option.some.injEq _ _ ▸ hb).symm
        subst hm12
        simp only [dateIncrement]
        rw [if_pos trivial, show y - 1 + 1 = y by ring, dateMk_toOption,
          if_pos (by rw [datetimeOk_iff]; omega)]
      · obtain rfl : b = ⟨y, m - 1, 1, 0, 2⟩ := (Option.some.injEq _ _ ▸ hb).symm
        simp only [dateIncrement]
        rw [if_neg (by omega : ¬ m - 1 = 12), show m - 1 + 1 = m by ring,
          dateMk_toOption, if_pos (by rw [datetimeOk_iff]; omega)]
  · -- precision 3
    obtain rfl := hh0 (by norm_num)
    constructor
    · intro b hb
      simp only [dateIncrement] at hb
      split_ifs at hb with hmax
      rcases hnd : nextDay (y, m, d) with ⟨n1, n2, n3⟩
      rw [hnd] at hb
      simp only at hb
      obtain rfl : b = ⟨n1, n2, n3, 0, 3⟩ := (Option.some.injEq _ _ ▸ hb).symm
      have hne : ¬(n1 = 1 ∧ n2 = 1 ∧ n3 = 1) := by
        have := nextDay_ne_min y m d hy1 hm1' hd1'
        rw [hnd] at this
        simpa [Prod.mk.injEq] using this
      have hprev : prevDay (n1, n2, n3) = (y, m, d) := by
        rw [← hnd]
        exact prevDay_nextDay y m d hm1' hm2' hd1' hd2'
      simp only [dateDecrement]
      rw [if_neg hne, hprev]
    · intro b hb
      simp only [dateDecrement] at hb
      split_ifs at hb with hmin
      rcases hpd : prevDay (y, m, d) with ⟨n1, n2, n3⟩
      rw [hpd] at hb
      simp only at hb
      obtain rfl : b = ⟨n1, n2, n3, 0, 3⟩ := (Option.some.injEq _ _ ▸ hb).symm
      have hne : ¬(n1 = 9999 ∧ n2 = 12 ∧ n3 = 31) := by
        have := prevDay_ne_max y m d hy2 hm1' hm2' hd2'
        rw [hpd] at this
        simpa [Prod.mk.injEq] using this
      have hnext : nextDay (n1, n2, n3) = (y, m, d) := by
        rw [← hpd]
        exact nextDay_prevDay y m d hm1' hm2' hd1' hd2'
      simp only [dateIncrement]
      rw [if_neg hne, hnext]
  · -- precision 4
    constructor
    · intro b hb
      simp only [dateIncrement] at hb
      split_ifs at hb with h23 hmax
      · obtain rfl : b = ⟨y, m, d, h + 1, 4⟩ := (Option.some.injEq _ _ ▸ hb).symm
        simp only [dateDecrement]
        rw [if_pos (by omega : (0:Int) < h + 1), show h + 1 - 1 = h by ring]
      · rcases hnd : nextDay (y, m, d) with ⟨n1, n2, n3⟩
        rw [hnd] at hb
        simp only at hb
        obtain rfl : b = ⟨n1, n2, n3, 0, 4⟩ := (Option.some.injEq _ _ ▸ hb).symm
        have hne : ¬(n1 = 1 ∧ n2 = 1 ∧ n3 = 1) := by
          have := nextDay_ne_min y m d hy1 hm1' hd1'
          rw [hnd] at this
          simpa [Prod.mk.injEq] using this
        have hprev : prevDay (n1, n2, n3) = (y, m, d) := by
          rw [← hnd]
          exact prevDay_nextDay y m d hm1' hm2' hd1' hd2'
        have h23' : h = 23 := by omega
        subst h23'
        simp only [dateDecrement]
        rw [if_neg (by omega : ¬ (0:Int) < 0), if_neg hne, hprev]
    · intro b hb
      simp only [dateDecrement] at hb
      split_ifs at hb with h0 hmin
      · obtain rfl : b = ⟨y, m, d, h - 1, 4⟩ := (Option.some.injEq _ _ ▸ hb).symm
        simp only [dateIncrement]
        rw [if_pos (by omega : h - 1 < 23), show h - 1 + 1 = h by ring]
      · rcases hpd : prevDay (y, m, d) with ⟨n1, n2, n3⟩
        rw [hpd] at hb
        simp only at hb
        obtain rfl : b = ⟨n1, n2, n3, 23, 4⟩ := (Option.some.injEq _ _ ▸ hb).symm
        have hne : ¬(n1 = 9999 ∧ n2 = 12 ∧ n3 = 31) := by
          have := prevDay_ne_max y m d hy2 hm1' hm2' hd2'
          rw [hpd] at this
          simpa [Prod.mk.injEq] using this
        have hnext : nextDay (n1, n2, n3) = (y, m, d) := by
          rw [← hpd]
          exact nextDay_prevDay y m d hm1' hm2' hd1' hd2'
        have h0' : h = 0 := by omega
        subst h0'
        simp only [dateIncrement]
        rw [if_neg (by omega : ¬ (23:Int) < 23), if_neg hne, hnext]

/-- Claim C5: every `Date` equals itself under `Date.__eq__`, and two dates
denoting the same calendar instant but carrying different precisions are not
equal - equality requires both the instant and the precision to match. -/
theorem date_eq_reflexive_and_precision_sensitive :
    (∀ a : PyDate, dateEq a a = true) ∧
    (∀ a b : PyDate, instantEq a b = true → a.precision ≠ b.precision →
      dateEq a b = false) := by
  constructor
  · intro a
    simp [dateEq, instantEq]
  · intro a b _ hp
    simp [dateEq, hp]

/-- Witness for C5 at concrete inputs: the year-precision date 2020 equals
itself, and differs from the month-precision date 2020-01 even though both
denote the same January instant. -/
theorem date_eq_precision_witness :
    dateEq ⟨2020, 1, 1, 0, 1⟩ ⟨2020, 1, 1, 0, 1⟩ = true ∧
    dateEq ⟨2020, 1, 1, 0, 1⟩ ⟨2020, 1, 1, 0, 2⟩ = false := by
  exact ⟨date_eq_reflexive_and_precision_sensitive.1 _,
    date_eq_reflexive_and_precision_sensitive.2 _ _ (by decide) (by decide)⟩

/-- Claim C6, counterexample to the unrestricted round-trip: the constructible
year-precision date 9999 is valid, but `increment` raises (the underlying
`datetime` constructor rejects year 10000), so
`d.increment().decrement() == d` fails there rather than round-tripping. -/
theorem date_increment_fails_at_year_9999 :
    dateValid ⟨9999, 1, 1, 0, 1⟩ ∧
      (dateIncrement ⟨9999, 1, 1, 0, 1⟩).bind dateDecrement ≠
        some ⟨9999, 1, 1, 0, 1⟩ := by
  constructor
  · decide
  · decide

/-- Witness for C6 at a concrete input exercising the 12 to 1 month
rollover: decrementing the increment of 2000-12 returns 2000-12. -/
theorem date_roundtrip_witness :
    dateDecrement ⟨2001, 1, 1, 0, 2⟩ = some ⟨2000, 12, 1, 0, 2⟩ :=
  (date_roundtrip ⟨2000, 12, 1, 0, 2⟩ (by decide)).1 ⟨2001, 1, 1, 0, 2⟩ (by decide)

/-- Claim C4, counterexample: building a `DateRange` from the two ranges
[2000,2001] and [2002,2003] (given unsorted, as from a set) succeeds with the
spanning interval [2000,2003] instead of failing - with closed intervals,
2001 incremented by one year equals 2002, so the contiguity check passes. -/
theorem dateRange_adjacent_years_not_an_error :
    dateRangeOfRanges
      [⟨⟨2002, 1, 1, 0, 1⟩, ⟨2003, 1, 1, 0, 1⟩⟩,
       ⟨⟨2000, 1, 1, 0, 1⟩, ⟨2001, 1, 1, 0, 1⟩⟩] =
      .ok ⟨⟨2000, 1, 1, 0, 1⟩, ⟨2003, 1, 1, 0, 1⟩⟩ := by
  rfl

/-- Claim C4 (amended): the set {[2000,2001], [2002,2003]} is contiguous
under the closed-interval rule (`end.increment() == next.start`) and merges
to [2000,2003]; a collection with an actual gap, such as
{[2000,2001], [2003,2004]}, fails with the non-contiguity `ValueError`. -/
theorem dateRange_contiguity_amended :
    dateRangeOfRanges
      [⟨⟨2000, 1, 1, 0, 1⟩, ⟨2001, 1, 1, 0, 1⟩⟩,
       ⟨⟨2002, 1, 1, 0, 1⟩, ⟨2003, 1, 1, 0, 1⟩⟩] =
      .ok ⟨⟨2000, 1, 1, 0, 1⟩, ⟨2003, 1, 1, 0, 1⟩⟩ ∧
    dateRangeOfRanges
      [⟨⟨2000, 1, 1, 0, 1⟩, ⟨2001, 1, 1, 0, 1⟩⟩,
       ⟨⟨2003, 1, 1, 0, 1⟩, ⟨2004, 1, 1, 0, 1⟩⟩] =
      .error (.valueError "Date Ranges not contiguous and nonoverlapping.") := by
  exact ⟨rfl, rfl⟩

/-- Claim C7: `DateFrequency("3hr")` equals `DateFrequency(3, "hr")` and
`DateFrequency("daily")` equals `DateFrequency(1, "dy")` under the
label-only equality, while 24 hours and 1 day are not equal even though
their underlying timedeltas coincide. -/
theorem dateFreq_parse_and_eq_examples :
    ((do
      let a ← dateFreqOfString "3hr"
      let b ← dateFreqNew 3 "hr"
      pure (dateFreqEq a b) : Except PyErr Bool) = .ok true) ∧
    ((do
      let a ← dateFreqOfString "daily"
      let b ← dateFreqNew 1 "dy"
      pure (dateFreqEq a b) : Except PyErr Bool) = .ok true) ∧
    ((do
      let a ← dateFreqNew 24 "hr"
      let b ← dateFreqNew 1 "dy"
      pure (dateFreqEq a b) : Except PyErr Bool) = .ok false) ∧
    (dateFreqNew 24 "hr").map (fun f => f.tdSeconds) =
      (dateFreqNew 1 "dy").map (fun f => f.tdSeconds) := by
  exact ⟨rfl, rfl, rfl, rfl⟩

/-- Claim C8, counterexample: the day frequency - `DateFrequency(1, "day")`,
normalized unit `dy` - is exactly a quantity-1 day value, yet `format_local`
raises `KeyError` on it, because the local table keys the day entry as `da`
while the constructor normalizes day units to `dy`. -/
theorem format_local_day_raises_keyerror :
    (dateFreqNew 1 "day").bind dateFreqFormatLocal = .error (.keyError "dy") := by
  rfl

/-- Claim C8 (amended): over the six constructible units, `format_local`
succeeds exactly for the `hr` unit (any quantity, default format) or for
quantity 1 with unit `mo` (giving `mon`); it raises `AssertionError` when
the quantity is not 1 outside `hr`, and `KeyError` for quantity 1 on the
remaining units, including the day unit `dy` missed by the `da` table
entry. -/
theorem format_local_classification (f : PyDateFrequency)
    (hu : f.unit ∈ ["yr", "se", "mo", "wk", "dy", "hr"]) :
    (exOk (dateFreqFormatLocal f) = true ↔
      (f.unit = "hr" ∨ (f.quantity = 1 ∧ f.unit = "mo"))) ∧
    (f.unit ≠ "hr" → f.quantity ≠ 1 →
      dateFreqFormatLocal f = .error .assertionError) ∧
    (f.unit ≠ "hr" → f.unit ≠ "mo" → f.quantity = 1 →
      dateFreqFormatLocal f = .error (.keyError f.unit)) := by
  obtain ⟨q, u, t⟩ := f
  simp only [List.mem_cons, List.not_mem_nil, or_false] at hu
  rcases hu with rfl | rfl | rfl | rfl | rfl | rfl <;>
    by_cases hq : q = 1 <;>
      simp_all [dateFreqFormatLocal, exOk]

/-- Witness for C8 at concrete inputs: quantity 1 of unit `mo` succeeds,
via the amended classification. -/
theorem format_local_classification_witness :
    exOk (dateFreqFormatLocal ⟨1, "mo", 2592000⟩) = true :=
  (format_local_classification ⟨1, "mo", 2592000⟩ (by simp)).1.mpr
    (Or.inr ⟨rfl, rfl⟩)

/-- Claim C10: `MultiMap.get_` raises `KeyError` for an absent key, returns
the bare element when the key is associated with exactly one value, and
returns the value collection when it is associated with more than one. -/
theorem mmGet_cardinality_shape (m : MMap) (k : String) :
    (∀ v, m.lookup k = some [v] → mmGet m k = .ok (.single v)) ∧
    (∀ vs, m.lookup k = some vs → vs.Nodup → 2 ≤ vs.length →
      mmGet m k = .ok (.coll vs)) ∧
    (m.lookup k = none → mmGet m k = .error (.keyError k)) := by
  refine ⟨?_, ?_, ?_⟩
  · intro v h
    simp [mmGet, h, coerceFromIter]
  · intro vs h _ hlen
    match vs, hlen with
    | v1 :: v2 :: t, _ => simp [mmGet, h, coerceFromIter]
  · intro h
    simp [mmGet, h]

/-- Witness for C10 on a concrete two-entry map: a singleton set comes back
as the bare element, a two-element set as the list, and a missing key as
`KeyError`. -/
theorem mmGet_cardinality_witness :
    mmGet [("a", ["x"]), ("b", ["y", "z"])] "a" = .ok (.single "x") ∧
    mmGet [("a", ["x"]), ("b", ["y", "z"])] "b" = .ok (.coll ["y", "z"]) ∧
    mmGet [("a", ["x"]), ("b", ["y", "z"])] "c" = .error (.keyError "c") := by
  refine ⟨(mmGet_cardinality_shape _ "a").1 "x" (by decide),
    (mmGet_cardinality_shape _ "b").2.1 ["y", "z"] (by decide) (by decide) (by decide),
    (mmGet_cardinality_shape _ "c").2.2 (by decide)⟩

theorem pairMem_nil (k v : String) : ¬ pairMem [] k v := by
  rintro ⟨vs, h, _⟩
  simp at h

theorem pairMem_cons (k2 : String) (vs2 : List String) (t : MMap) (k v : String) :
    pairMem ((k2, vs2) :: t) k v ↔ (k = k2 ∧ v ∈ vs2) ∨ pairMem t k v := by
  constructor
  · rintro ⟨vs, h, hv⟩
    rcases List.mem_cons.mp h with h1 | h1
    · obtain ⟨rfl, rfl⟩ := Prod.mk.injEq .. ▸ h1
      exact Or.inl ⟨rfl, hv⟩
    · exact Or.inr ⟨vs, h1, hv⟩
  · rintro (⟨rfl, hv⟩ | ⟨vs, h, hv⟩)
    · exact ⟨vs2, List.mem_cons_self _ _, hv⟩
    · exact ⟨vs, List.mem_cons_of_mem _ h, hv⟩

theorem dAdd_pairMem (d : MMap) (v k k2 v2 : String) :
    pairMem (dAdd d v k) k2 v2 ↔ pairMem d k2 v2 ∨ (k2 = v ∧ v2 = k) := by
  induction d with
  | nil =>
    simp [dAdd, pairMem_cons, pairMem_nil]
  | cons a t ih =>
    obtain ⟨w, ks⟩ := a
    by_cases hw : w = v
    · subst hw
      have hmem : v2 ∈ (if k ∈ ks then ks else ks ++ [k]) ↔ v2 ∈ ks ∨ v2 = k := by
        split_ifs with hk
        · constructor
          · exact Or.inl
          · rintro (h1 | rfl)
            · exact h1
            · exact hk
        · simp [List.mem_append]
      simp only [dAdd, eq_self_iff_true, if_true, pairMem_cons, hmem]
      tauto
    · simp only [dAdd, if_neg hw, pairMem_cons, ih]
      tauto

theorem foldl_dAdd_pairMem (vs : List String) (key : String) (d : MMap)
    (k2 v2 : String) :
    pairMem (vs.foldl (fun d2 v => dAdd d2 v key) d) k2 v2 ↔
      pairMem d k2 v2 ∨ (k2 ∈ vs ∧ v2 = key) := by
  induction vs generalizing d with
  | nil => simp
  | cons a t ih =>
    simp only [List.foldl_cons, ih, dAdd_pairMem, List.mem_cons]
    tauto

theorem mmInverse_fold_pairMem (m : MMap) (d : MMap) (k2 v2 : String) :
    pairMem (m.foldl (fun dd kv => kv.2.foldl (fun d2 v => dAdd d2 v kv.1) dd) d)
        k2 v2 ↔
      pairMem d k2 v2 ∨ pairMem m v2 k2 := by
  induction m generalizing d with
  | nil => simp [pairMem_nil]
  | cons a t ih =>
    obtain ⟨w, ks⟩ := a
    simp only [List.foldl_cons, ih, foldl_dAdd_pairMem, pairMem_cons]
    tauto

theorem mmInverse_pairMem (m : MMap) (v k : String) :
    pairMem (mmInverse m) v k ↔ pairMem m k v := by
  have h := mmInverse_fold_pairMem m [] v k
  rw [mmInverse]
  rw [h]
  simp [pairMem_nil]

/-- Claim C9 (amended to a pair of distinct categories): starting from a
freshly loaded vocabulary, looking up `(source, dest)` and then
`(dest, source)` - the second answered from the cache of the first by
inversion - yields maps that are exact set-theoretic inverses: `k` maps to
`v` in the forward map exactly when `v` maps to `k` in the reverse map. -/
theorem get_lookup_inverse_of_forward
    (contents : CVContents) (source dest : String) (hne : source ≠ dest)
    (mm1 mm2 : MMap) (st1 st2 : CMIP6CVs)
    (h1 : getLookup ⟨contents, []⟩ source dest = .ok (mm1, st1))
    (h2 : getLookup st1 dest source = .ok (mm2, st2)) (k v : String) :
    pairMem mm1 k v ↔ pairMem mm2 v k := by
  unfold getLookup at h1
  cases hcs : contents.lookup source with
  | none =>
    rw [hcs] at h1
    cases hcd : contents.lookup dest <;> rw [hcd] at h1 <;> simp at h1
  | some tblS =>
    rw [hcs] at h1
    cases hcd : contents.lookup dest with
    | none =>
      rw [hcd] at h1
      simp at h1
    | some tblD =>
      rw [hcd] at h1
      simp only [List.lookup] at h1
      cases hb : buildLookup tblS dest with
      | error e =>
        rw [hb] at h1
        simp [Except.map] at h1
      | ok mm =>
        rw [hb] at h1
        simp only [Except.map, Except.ok.injEq, Prod.mk.injEq] at h1
        obtain ⟨rfl, rfl⟩ := h1
        unfold getLookup at h2
        rw [hcd, hcs] at h2
        have hb1 : (dest == source) = false :=
          beq_eq_false_iff_ne.mpr (fun hc => hne hc.symm)
        have hbeq : (((dest, source) : String × String) == (source, dest)) = false := by
          show (dest == source && source == dest) = false
          rw [hb1]
          rfl
        have hbeq2 : (((source, dest) : String × String) == (source, dest)) = true := by
          simp
        simp only [List.lookup, hbeq, hbeq2] at h2
        simp only [Except.ok.injEq, Prod.mk.injEq] at h2
        obtain ⟨⟨rfl, -⟩, -⟩ := h2
        exact (mmInverse_pairMem mm v k).symm

/-- Claim C9, counterexample to the unrestricted claim: with `source = dest`
allowed, for the loaded table `{c: {a: {c: [b]}}}` both `GetLookup(c, c)`
calls return the same cached map `{a: {b}}` (the second is a cache hit, not
an inversion), and that map is not its own inverse: `a` maps to `b` but `b`
does not map to `a`. -/
theorem get_lookup_same_category_not_inverse :
    getLookup ⟨[("c", [("a", [("c", ["b"])])])], []⟩ "c" "c" =
      .ok ([("a", ["b"])],
        ⟨[("c", [("a", [("c", ["b"])])])], [(("c", "c"), [("a", ["b"])])]⟩) ∧
    getLookup ⟨[("c", [("a", [("c", ["b"])])])], [(("c", "c"), [("a", ["b"])])]⟩
        "c" "c" =
      .ok ([("a", ["b"])],
        ⟨[("c", [("a", [("c", ["b"])])])], [(("c", "c"), [("a", ["b"])])]⟩) ∧
    pairMem [("a", ["b"])] "a" "b" ∧ ¬ pairMem [("a", ["b"])] "b" "a" := by
  refine ⟨rfl, rfl, ⟨["b"], by simp, by simp⟩, ?_⟩
  rintro ⟨vs, hm, -⟩
  simp only [List.mem_singleton, Prod.mk.injEq] at hm
  exact absurd hm.1 (by decide)

/-- Witness for C9 on a concrete two-category vocabulary: the forward map
`{x: {T1, T2}}` and the cache-inverted reverse map `{T1: {x}, T2: {x}}`
agree on the pair (x, T1). -/
theorem get_lookup_inverse_witness :
    pairMem [("x", ["T1", "T2"])] "x" "T1" ↔
      pairMem [("T1", ["x"]), ("T2", ["x"])] "T1" "x" :=
  get_lookup_inverse_of_forward
    [("frq", [("x", [("tbl", ["T1", "T2"])])]), ("tbl", [])] "frq" "tbl"
    (by decide) [("x", ["T1", "T2"])] [("T1", ["x"]), ("T2", ["x"])]
    ⟨[("frq", [("x", [("tbl", ["T1", "T2"])])]), ("tbl", [])],
      [(("frq", "tbl"), [("x", ["T1", "T2"])])]⟩
    ⟨[("frq", [("x", [("tbl", ["T1", "T2"])])]), ("tbl", [])],
      [(("frq", "tbl"), [("x", ["T1", "T2"])])]⟩
    rfl rfl "x" "T1"

/-- Every call of `parse_mip_table_id` raises: when the table-id grammar
matches, constructing the `CMIP6DateFrequency` raises `TypeError` (arity
mismatch of `_parse_input_string`), and otherwise the function raises
`ValueError`. -/
theorem parseMipTableId_error (s : String) :
    ∃ e, parseMipTableId s = .error e := by
  unfold parseMipTableId
  cases hcg : mipGroups s with
  | none => exact ⟨_, rfl⟩
  | some g => exact ⟨_, rfl⟩

/-- Every call of `parse_DRS_directory` raises: either the regex fails, or
the version-date parse fails, or the unavoidable `parse_mip_table_id` crash
propagates. -/
theorem parseDRSDirectory_error (dir : String) :
    ∃ e, parseDRSDirectory dir = .error e := by
  unfold parseDRSDirectory
  cases hm : reMatch drsDirectoryRE dir with
  | none => exact ⟨_, rfl⟩
  | some caps =>
    cases hvd : dateOfString (capStr caps 9) with
    | error e => exact ⟨e, by simp only [hvd]; rfl⟩
    | ok vd =>
      obtain ⟨e2, he2⟩ := parseMipTableId_error (capStr caps 6)
      exact ⟨e2, by simp only [hvd, he2]; rfl⟩

/-- Every call of `parse_DRS_path` raises, because its directory half always
does. -/
theorem parseDRSPath_error (p : String) :
    ∃ e, parseDRSPath p = .error e := by
  unfold parseDRSPath
  obtain ⟨e, he⟩ := parseDRSDirectory_error (osPathSplit p).1
  exact ⟨e, by simp only [he]; rfl⟩

set_option maxRecDepth 65536 in
/-- Claim C1: on the specification's own end-to-end example the DRS path
parse does not succeed - the `\w+` segments of both DRS regexes cannot match
the hyphens in `NOAA-GFDL` and `GFDL-ESM4`, so the directory half (and the
filename half on its own) fails with the cannot-parse `ValueError` instead
of returning a record with `variable_id = tas`. -/
theorem drs_spec_example_fails :
    parseDRSPath
        "CMIP6/CMIP/NOAA-GFDL/GFDL-ESM4/historical/r1i1p1f1/Amon/tas/gr1/v20190726/tas_Amon_GFDL-ESM4_historical_r1i1p1f1_gr1_185001-194912.nc" =
      .error (.valueError
        "Cannot parse CMIP6/CMIP/NOAA-GFDL/GFDL-ESM4/historical/r1i1p1f1/Amon/tas/gr1/v20190726.") ∧
    exOk (parseDRSFilename
      "tas_Amon_GFDL-ESM4_historical_r1i1p1f1_gr1_185001-194912.nc") = false := by
  exact ⟨rfl, rfl⟩

set_option maxRecDepth 65536 in
/-- Claim C2: the cross-validating combined parse can never return a merged
record or a field-specific inconsistency error - `parse_DRS_directory`
raises on every input (so the premise that both halves parse is
unsatisfiable), `parse_DRS_path` therefore raises on every input, and on a
hyphen-free path whose halves would otherwise match, the failure is the
`TypeError` from `parse_mip_table_id`; had execution ever reached the
comparison loop, it reads `d1['key']` with the literal string `key`
(raising `KeyError`), and the success line returns `dict.update`'s `None`
instead of the merged record. -/
theorem parse_DRS_path_never_merges :
    (∀ dir, ∃ e, parseDRSDirectory dir = .error e) ∧
    (∀ p, ∃ e, parseDRSPath p = .error e) ∧
    parseDRSPath
        "CMIP6/CMIP/NOAA/ESM4/historical/r1i1p1f1/Amon/tas/gr1/v20190726/tas_Amon_ESM4_historical_r1i1p1f1_gr1_185001-194912.nc" =
      .error (.typeError "parse input string takes exactly 3 arguments (2 given)") :=
  ⟨parseDRSDirectory_error, parseDRSPath_error, rfl⟩

/-- Claim C3: `parse_mip_table_id` raises `TypeError` on `Amon` (and every
other code) because `DateFrequency.__new__` calls the two-argument
`CMIP6DateFrequency._parse_input_string` with one argument; the grammar and
normalization the claim describes are nevertheless present and correct: the
table-id regex decomposes `Amon`, `3hr` and `AERmonZ` into the claimed
prefix / frequency / qualifier captures, and the frequency group-dictionary
normalization yields unit `mo` for `mon`, quantity 3 unit `hr` for `3hr`,
and unit `mo` again for the frequency token of `AERmonZ`. -/
theorem mip_table_parse_crashes_but_grammar_agrees :
    parseMipTableId "Amon" =
      .error (.typeError "parse input string takes exactly 3 arguments (2 given)") ∧
    mipGroups "Amon" = some ("A", "mon", "", "") ∧
    cmip6FreqGroupdict "mon" = .ok ⟨1, "mo", "Mean", 2⟩ ∧
    mipGroups "3hr" = some ("", "3hr", "", "") ∧
    cmip6FreqGroupdict "3hr" = .ok ⟨3, "hr", "Mean", 5⟩ ∧
    mipGroups "AERmonZ" = some ("AER", "mon", "", "Z") := by
  exact ⟨rfl, rfl, rfl, rfl, rfl, rfl⟩
